import Mathlib

/-!
Shallow embedding of the persisted token-bucket rate limiter in
`src/rate_limiter.rs`.

Modelling conventions:
* Timestamps (`NaiveDateTime`, PostgreSQL `timestamp`) are integer
  microseconds since the epoch (PostgreSQL keeps microsecond precision).
* Durations (`std::time::Duration`, PostgreSQL `interval`) are integer
  microseconds as well.
* The SQL helpers `date_part("epoch", _)`, `interval_part("epoch", _)`,
  `floor`, `least`, `greatest` are the standard PostgreSQL functions; the
  epoch parts are modelled exactly over `ℚ` (the engine computes them in
  double precision; tests in the repository restrict themselves to
  rounding-safe timestamps, so the exact-arithmetic model is the intended
  semantics).
* The bucket and override tables are keyed by `(user_id, action)`; every
  statement issued by the limiter touches exactly the row of its own key,
  so the store is modelled per key: the row for the key under consideration
  is an `Option Bucket` resp. `Option PublishRateOverride`.
* `take_token` performs one atomic `INSERT .. ON CONFLICT DO UPDATE` and
  returns the resulting row; the model returns the persisted `Bucket`.
-/

namespace RateLimit

/-- Timestamps: integer microseconds since the epoch. -/
abbrev Timestamp := Int

/-- Durations: integer microseconds. -/
abbrev Micros := Int

/-- The `LimitedAction` enum of the source (one variant). -/
inductive LimitedAction where
  | PublishNew
deriving DecidableEq, Repr

/-- Source `default_rate_seconds`: 60 * 60 seconds for `PublishNew`. -/
def LimitedAction.default_rate_seconds : LimitedAction → Int
  | .PublishNew => 60 * 60

/-- Source `default_burst`: 5 for `PublishNew`. -/
def LimitedAction.default_burst : LimitedAction → Int
  | .PublishNew => 5

/-- Source struct `RateLimiterConfig { rate: Duration, burst: i32 }`.
`rate` is in microseconds and is nonnegative in Rust (`Duration`). -/
structure RateLimiterConfig where
  rate : Micros
  burst : Int
deriving DecidableEq, Repr

/-- Source struct `RateLimiter { config: HashMap<LimitedAction, RateLimiterConfig> }`. -/
structure RateLimiter where
  config : LimitedAction → Option RateLimiterConfig

/-- Source `config_for_action`: the configured entry, or the built-in
default (`Duration::from_secs(default_rate_seconds)`, `default_burst`). -/
def RateLimiter.config_for_action (rl : RateLimiter) (a : LimitedAction) :
    RateLimiterConfig :=
  match rl.config a with
  | some c => c
  | none => ⟨a.default_rate_seconds * 1000000, a.default_burst⟩

/-- Source line 90: `(config.rate.as_millis() as i64).milliseconds()` —
the refill interval handed to SQL, truncated to whole milliseconds. -/
def refill_rate_of (config : RateLimiterConfig) : Micros :=
  config.rate / 1000 * 1000

/-- One row of `publish_limit_buckets` (source struct `Bucket`). -/
structure Bucket where
  user_id : Int
  tokens : Int
  last_refill : Timestamp
  action : LimitedAction
deriving DecidableEq, Repr

/-- One row of `publish_rate_overrides` for the key under consideration:
`burst` and the nullable `expires_at`. -/
structure PublishRateOverride where
  burst : Int
  expires_at : Option Timestamp
deriving DecidableEq, Repr

/-- PostgreSQL `date_part("epoch", t)`: seconds since the epoch, here the
exact rational value of a microsecond timestamp. -/
def date_part_epoch (t : Timestamp) : ℚ := (t : ℚ) / 1000000

/-- PostgreSQL `interval_part("epoch", d)`: seconds of an interval. -/
def interval_part_epoch (d : Micros) : ℚ := (d : ℚ) / 1000000

/-- Source lines 107-110: `floor((date_part("epoch", now) -
date_part("epoch", last_refill)) / interval_part("epoch", refill_rate))`. -/
def tokens_to_add (now last_refill_v : Timestamp) (refill_rate : Micros) : Int :=
  ⌊(date_part_epoch now - date_part_epoch last_refill_v) /
      interval_part_epoch refill_rate⌋

/-- Source lines 92-102: look up the override row for the key, keep it only
when `expires_at` is null or `expires_at > now`, take its `burst`, and fall
back to `config.burst` when no row survives the filter. -/
def effective_burst (override_row : Option PublishRateOverride)
    (config_burst : Int) (now : Timestamp) : Int :=
  match override_row with
  | none => config_burst
  | some o =>
    match o.expires_at with
    | none => o.burst
    | some e => if now < e then o.burst else config_burst

/-- Source `take_token` (lines 80-126): resolve the effective burst, then
issue the atomic upsert on `publish_limit_buckets`:
* no row for the key: insert `(uploader, performed_action, burst, now)`;
* existing row `b`: set
  `tokens = least(burst, greatest(0, tokens - 1) + tokens_to_add)` and
  `last_refill = last_refill + refill_rate * tokens_to_add`, where the bare
  column names denote the existing row values.
The returned `Bucket` is the persisted row (`get_result`). -/
def take_token (rl : RateLimiter) (uploader : Int)
    (performed_action : LimitedAction) (now : Timestamp)
    (override_row : Option PublishRateOverride)
    (bucket_row : Option Bucket) : Bucket :=
  let config := rl.config_for_action performed_action
  let refill_rate := refill_rate_of config
  let burst := effective_burst override_row config.burst now
  match bucket_row with
  | none => ⟨uploader, burst, now, performed_action⟩
  | some b =>
    let add := tokens_to_add now b.last_refill refill_rate
    ⟨b.user_id, min burst (max 0 (b.tokens - 1) + add),
      b.last_refill + refill_rate * add, b.action⟩

/-- Outcome of `check_rate_limit`: `Ok(())` or the `TooManyRequests`
error carrying `retry_after`. -/
inductive CheckOutcome where
  | ok
  | tooManyRequests (retry_after : Timestamp)
deriving DecidableEq, Repr

/-- Source `check_rate_limit` (lines 54-70). The source reads the clock
itself (`Utc::now().naive_utc()`, line 60) rather than taking `now` from
the caller; `utcNow` models that hidden clock reading. The function calls
`take_token` with it and returns `Ok` when the resulting row has
`tokens >= 1`, else `TooManyRequests { retry_after = last_refill +
config.rate }`. The second component is the row persisted by the call. -/
def check_rate_limit (rl : RateLimiter) (uploader : Int)
    (performed_action : LimitedAction) (utcNow : Timestamp)
    (override_row : Option PublishRateOverride)
    (bucket_row : Option Bucket) : CheckOutcome × Bucket :=
  let bucket := take_token rl uploader performed_action utcNow override_row
    bucket_row
  if 1 ≤ bucket.tokens then (.ok, bucket)
  else
    (.tooManyRequests
      (bucket.last_refill + (rl.config_for_action performed_action).rate),
      bucket)

/-- State of the bucket row of a fresh key after `n + 1` consecutive
`take_token` calls, all at the same instant `now` (call number `k`
operates on `bucket_after (k - 1)`, with `bucket_after 0 = none`). -/
def bucket_after (rl : RateLimiter) (uploader : Int) (a : LimitedAction)
    (now : Timestamp) (override_row : Option PublishRateOverride) :
    Nat → Option Bucket
  | 0 => none
  | n + 1 =>
    some (take_token rl uploader a now override_row
      (bucket_after rl uploader a now override_row n))

/-- Outcome of check number `n + 1` on a fresh key, all calls at `now`. -/
def nth_check (rl : RateLimiter) (uploader : Int) (a : LimitedAction)
    (now : Timestamp) (override_row : Option PublishRateOverride)
    (n : Nat) : CheckOutcome :=
  (check_rate_limit rl uploader a now override_row
    (bucket_after rl uploader a now override_row n)).1

/-- An override row is effective at `now` iff `expires_at` is null or
strictly in the future (spec section 3 wording). -/
def EffectiveAt (o : PublishRateOverride) (now : Timestamp) : Prop :=
  o.expires_at = none ∨ ∃ e, o.expires_at = some e ∧ now < e

end RateLimit

namespace RateLimit

/-- The rational epoch quotient of the SQL reduces to the plain
microsecond quotient. -/
lemma epoch_quotient_eq (now l r : Int) :
    (date_part_epoch now - date_part_epoch l) / interval_part_epoch r =
      ((now - l : Int) : ℚ) / (r : ℚ) := by
  unfold date_part_epoch interval_part_epoch
  rcases eq_or_ne (r : ℚ) 0 with h | h
  · simp [h]
  · push_cast
    field_simp

/-- For a positive refill rate, the floored epoch quotient is integer floor
division of the microsecond difference by the rate. -/
lemma tokens_to_add_eq_ediv (now l : Timestamp) (r : Micros) (hr : 0 < r) :
    tokens_to_add now l r = (now - l) / r := by
  unfold tokens_to_add
  rw [epoch_quotient_eq]
  have hrn : r = ((r.toNat : ℕ) : Int) := (Int.toNat_of_nonneg hr.le).symm
  rw [hrn]
  rw [show ((now - l : Int) : ℚ) / (((r.toNat : ℕ) : Int) : ℚ) =
      ((now - l : Int) : ℚ) / ((r.toNat : ℕ) : ℚ) by push_cast; ring_nf]
  exact Rat.floor_intCast_div_natCast (now - l) r.toNat

end RateLimit

namespace RateLimit

/-- Unfolding of `take_token` on an existing row, with the floored epoch
quotient replaced by integer floor division (positive refill rate). -/
lemma take_token_some (rl : RateLimiter) (u : Int) (a : LimitedAction)
    (now : Timestamp) (ov : Option PublishRateOverride) (b : Bucket)
    (hr : 0 < refill_rate_of (rl.config_for_action a)) :
    take_token rl u a now ov (some b) =
      ⟨b.user_id,
        min (effective_burst ov (rl.config_for_action a).burst now)
          (max 0 (b.tokens - 1) +
            (now - b.last_refill) / refill_rate_of (rl.config_for_action a)),
        b.last_refill +
          refill_rate_of (rl.config_for_action a) *
            ((now - b.last_refill) / refill_rate_of (rl.config_for_action a)),
        b.action⟩ := by
  simp [take_token, tokens_to_add_eq_ediv _ _ _ hr]

/-- Unfolding of `take_token` when no row exists for the key. -/
lemma take_token_none (rl : RateLimiter) (u : Int) (a : LimitedAction)
    (now : Timestamp) (ov : Option PublishRateOverride) :
    take_token rl u a now ov none =
      ⟨u, effective_burst ov (rl.config_for_action a).burst now, now, a⟩ := rfl

/-- Zero whole intervals elapse between a timestamp and itself, for any
refill rate (including a degenerate zero rate). -/
lemma tokens_to_add_self (now : Timestamp) (r : Micros) :
    tokens_to_add now now r = 0 := by
  simp [tokens_to_add]

end RateLimit

namespace RateLimit

/-- Claim C1: on an existing bucket `(t0, L0)`, a check at `now` persists
and returns `tokens = min B (max 0 (t0 - 1) + elapsed_units)` with
`elapsed_units = ⌊(now - L0) / R⌋` (integer floor division of the
microsecond difference by the refill rate, equal to the floored epoch
quotient the SQL computes); in particular, when the effective burst has
dropped below the banked tokens (`B ≤ t0 - 1`) and time has not gone
backwards, the token count is truncated to exactly `B` on this call. -/
theorem C1_existing_bucket_token_formula (rl : RateLimiter) (u : Int)
    (a : LimitedAction) (now : Timestamp) (ov : Option PublishRateOverride)
    (b : Bucket) (hr : 0 < refill_rate_of (rl.config_for_action a)) :
    (take_token rl u a now ov (some b)).tokens =
      min (effective_burst ov (rl.config_for_action a).burst now)
        (max 0 (b.tokens - 1) +
          (now - b.last_refill) / refill_rate_of (rl.config_for_action a)) ∧
    (effective_burst ov (rl.config_for_action a).burst now ≤ b.tokens - 1 →
      b.last_refill ≤ now →
      (take_token rl u a now ov (some b)).tokens =
        effective_burst ov (rl.config_for_action a).burst now) := by
  constructor
  · rw [take_token_some rl u a now ov b hr]
  · intro hB hL
    rw [take_token_some rl u a now ov b hr]
    have hdiv : 0 ≤ (now - b.last_refill) /
        refill_rate_of (rl.config_for_action a) :=
      Int.ediv_nonneg (sub_nonneg.mpr hL) hr.le
    have hmax : effective_burst ov (rl.config_for_action a).burst now ≤
        max 0 (b.tokens - 1) +
          (now - b.last_refill) / refill_rate_of (rl.config_for_action a) :=
      le_trans (le_trans hB (le_max_right _ _)) (le_add_of_nonneg_right hdiv)
    exact min_eq_left hmax

/-- Witness for C1: rate 1 s, burst 10, bucket at 5 tokens with
`last_refill = 0`, check at `now = 2000000` µs; the returned count is
`min 10 (max 0 4 + 2) = 6` as in the spec scenario. -/
theorem C1_witness :
    (take_token ⟨fun _ => some ⟨1000000, 10⟩⟩ 7 .PublishNew 2000000 none
      (some ⟨7, 5, 0, .PublishNew⟩)).tokens = 6 := by
  rw [(C1_existing_bucket_token_formula ⟨fun _ => some ⟨1000000, 10⟩⟩ 7
    .PublishNew 2000000 none ⟨7, 5, 0, .PublishNew⟩ (by decide)).1]
  decide

/-- Claim C2: on an existing bucket, a check sets
`last_refill = L0 + elapsed_units * R`, an exact integer multiple of the
refill rate added to the prior `last_refill`, never snapped to `now`. -/
theorem C2_last_refill_advances_by_rate_multiples (rl : RateLimiter)
    (u : Int) (a : LimitedAction) (now : Timestamp)
    (ov : Option PublishRateOverride) (b : Bucket)
    (hr : 0 < refill_rate_of (rl.config_for_action a)) :
    (take_token rl u a now ov (some b)).last_refill =
      b.last_refill +
        ((now - b.last_refill) / refill_rate_of (rl.config_for_action a)) *
          refill_rate_of (rl.config_for_action a) := by
  rw [take_token_some rl u a now ov b hr]
  exact congrArg (b.last_refill + ·) (mul_comm _ _)

/-- Witness for C2: rate 100 ms, bucket refilled at `L0 = 0`, check at
`now = 250000` µs; `last_refill` advances by exactly 200 ms (two whole
intervals), not to the queried time. -/
theorem C2_witness :
    (take_token ⟨fun _ => some ⟨100000, 10⟩⟩ 7 .PublishNew 250000 none
      (some ⟨7, 5, 0, .PublishNew⟩)).last_refill = 200000 := by
  rw [C2_last_refill_advances_by_rate_multiples ⟨fun _ => some ⟨100000, 10⟩⟩ 7
    .PublishNew 250000 none ⟨7, 5, 0, .PublishNew⟩ (by decide)]
  decide

end RateLimit

namespace RateLimit

/-- Whole elapsed intervals are nonnegative when time has not gone
backwards and the refill rate is nonnegative (a zero rate yields a zero
quotient in the rational model). -/
lemma tokens_to_add_nonneg (now l : Timestamp) (r : Micros)
    (hL : l ≤ now) (hr : 0 ≤ r) : 0 ≤ tokens_to_add now l r := by
  rcases hr.eq_or_lt with h | h
  · simp [tokens_to_add, interval_part_epoch, ← h]
  · rw [tokens_to_add_eq_ediv now l r h]
    exact Int.ediv_nonneg (sub_nonneg.mpr hL) h.le

/-- The refill interval handed to SQL is nonnegative whenever the
configured rate is (in Rust the rate is a `Duration`, hence nonnegative). -/
lemma refill_rate_of_nonneg (config : RateLimiterConfig)
    (h : 0 ≤ config.rate) : 0 ≤ refill_rate_of config :=
  mul_nonneg (Int.ediv_nonneg h (by norm_num)) (by norm_num)

/-- The bucket persisted by `check_rate_limit` is the `take_token` row. -/
lemma check_rate_limit_snd (rl : RateLimiter) (u : Int) (a : LimitedAction)
    (now : Timestamp) (ov : Option PublishRateOverride)
    (row : Option Bucket) :
    (check_rate_limit rl u a now ov row).2 = take_token rl u a now ov row := by
  simp only [check_rate_limit]
  split <;> rfl

/-- The outcome of `check_rate_limit` as a conditional on the persisted
token count. -/
lemma check_rate_limit_fst (rl : RateLimiter) (u : Int) (a : LimitedAction)
    (now : Timestamp) (ov : Option PublishRateOverride)
    (row : Option Bucket) :
    (check_rate_limit rl u a now ov row).1 =
      if 1 ≤ (take_token rl u a now ov row).tokens then CheckOutcome.ok
      else
        CheckOutcome.tooManyRequests
          ((take_token rl u a now ov row).last_refill +
            (rl.config_for_action a).rate) := by
  simp only [check_rate_limit]
  split <;> simp_all

end RateLimit

namespace RateLimit

/-- Claim C3 (amended): the first check for a key with no bucket row
creates the row with `tokens = B` (the effective burst) and
`last_refill = now` — not pre-decremented for the current call — and,
provided `B ≥ 1`, that first check returns Allow. (As stated the claim
fails for `B = 0`: the row is created with zero tokens and the call is
denied; see the counterexample.) -/
theorem C3_first_check_creates_row (rl : RateLimiter) (u : Int)
    (a : LimitedAction) (now : Timestamp)
    (ov : Option PublishRateOverride) :
    take_token rl u a now ov none =
      ⟨u, effective_burst ov (rl.config_for_action a).burst now, now, a⟩ ∧
    (1 ≤ effective_burst ov (rl.config_for_action a).burst now →
      (check_rate_limit rl u a now ov none).1 = CheckOutcome.ok) := by
  refine ⟨rfl, fun h => ?_⟩
  rw [check_rate_limit_fst, take_token_none]
  exact if_pos h

/-- Witness for C3: with the built-in default config (burst 5) and no
override, the very first check of a fresh key is allowed. -/
theorem C3_witness :
    (check_rate_limit ⟨fun _ => none⟩ 7 .PublishNew 0 none none).1 =
      CheckOutcome.ok :=
  (C3_first_check_creates_row ⟨fun _ => none⟩ 7 .PublishNew 0 none).2
    (by decide)

/-- Counterexample to C3 as stated: with effective burst `B = 0`, the
first check for a fresh key still creates the row (`tokens = 0`,
`last_refill = now`) but returns Deny, not Allow. -/
theorem C3_counterexample :
    take_token ⟨fun _ => some ⟨1000000, 0⟩⟩ 7 .PublishNew 0 none none =
      ⟨7, 0, 0, .PublishNew⟩ ∧
    (check_rate_limit ⟨fun _ => some ⟨1000000, 0⟩⟩ 7 .PublishNew 0 none
      none).1 ≠ CheckOutcome.ok := by
  exact ⟨rfl, by decide⟩

/-- Claim C4 (amended): provided the effective burst is nonnegative, the
configured rate is nonnegative (it is a Rust `Duration`), and the queried
time is not earlier than the stored `last_refill`, the token count
persisted by a check satisfies `0 ≤ tokens ≤ effective burst`. (As
stated, without the time precondition, the claim fails: a check with
`now` before `last_refill` can drive the count negative; see the
counterexample and claim C10.) -/
theorem C4_tokens_within_bounds (rl : RateLimiter) (u : Int)
    (a : LimitedAction) (now : Timestamp) (ov : Option PublishRateOverride)
    (row : Option Bucket)
    (hB : 0 ≤ effective_burst ov (rl.config_for_action a).burst now)
    (hrate : 0 ≤ (rl.config_for_action a).rate)
    (hrow : ∀ b : Bucket, row = some b → b.last_refill ≤ now) :
    0 ≤ (take_token rl u a now ov row).tokens ∧
    (take_token rl u a now ov row).tokens ≤
      effective_burst ov (rl.config_for_action a).burst now := by
  cases row with
  | none => exact ⟨hB, le_refl _⟩
  | some b =>
    have hadd : 0 ≤ tokens_to_add now b.last_refill
        (refill_rate_of (rl.config_for_action a)) :=
      tokens_to_add_nonneg now b.last_refill _ (hrow b rfl)
        (refill_rate_of_nonneg _ hrate)
    have hlo : 0 ≤ max 0 (b.tokens - 1) +
        tokens_to_add now b.last_refill
          (refill_rate_of (rl.config_for_action a)) :=
      add_nonneg (le_max_left _ _) hadd
    exact ⟨le_min hB hlo, min_le_left _ _⟩

/-- Witness for C4: rate 1 s, burst 10, bucket at 5 tokens refilled at 0,
checked at 2 s; the persisted count lies within `[0, 10]`. -/
theorem C4_witness :
    0 ≤ (take_token ⟨fun _ => some ⟨1000000, 10⟩⟩ 7 .PublishNew 2000000 none
      (some ⟨7, 5, 0, .PublishNew⟩)).tokens ∧
    (take_token ⟨fun _ => some ⟨1000000, 10⟩⟩ 7 .PublishNew 2000000 none
      (some ⟨7, 5, 0, .PublishNew⟩)).tokens ≤
      effective_burst none
        ((RateLimiter.mk fun _ => some ⟨1000000, 10⟩).config_for_action
          .PublishNew).burst 2000000 :=
  C4_tokens_within_bounds ⟨fun _ => some ⟨1000000, 10⟩⟩ 7 .PublishNew
    2000000 none (some ⟨7, 5, 0, .PublishNew⟩) (by decide) (by decide)
    (fun b hb => by cases hb; decide)

/-- Counterexample to C4 as stated: with `now` ten seconds before the
stored `last_refill` (rate 1 s, burst 10, five banked tokens), the
persisted token count is negative. -/
theorem C4_counterexample :
    (take_token ⟨fun _ => some ⟨1000000, 10⟩⟩ 7 .PublishNew 0 none
      (some ⟨7, 5, 10000000, .PublishNew⟩)).tokens < 0 := by
  rw [(take_token_some ⟨fun _ => some ⟨1000000, 10⟩⟩ 7 .PublishNew 0 none
    ⟨7, 5, 10000000, .PublishNew⟩ (by decide))]
  decide

/-- Claim C5: whenever the post-operation token count is at least 1 the
call returns Ok, and whenever it is 0 the call returns the
`TooManyRequests` error with `retry_after` equal to the post-operation
`last_refill` plus the configured rate of the action. -/
theorem C5_allow_iff_tokens_remain (rl : RateLimiter) (u : Int)
    (a : LimitedAction) (now : Timestamp) (ov : Option PublishRateOverride)
    (row : Option Bucket) :
    (1 ≤ (check_rate_limit rl u a now ov row).2.tokens →
      (check_rate_limit rl u a now ov row).1 = CheckOutcome.ok) ∧
    ((check_rate_limit rl u a now ov row).2.tokens = 0 →
      (check_rate_limit rl u a now ov row).1 =
        CheckOutcome.tooManyRequests
          ((check_rate_limit rl u a now ov row).2.last_refill +
            (rl.config_for_action a).rate)) := by
  constructor
  · intro h
    rw [check_rate_limit_snd] at h
    rw [check_rate_limit_fst]
    exact if_pos h
  · intro h
    rw [check_rate_limit_snd] at h
    rw [check_rate_limit_fst, check_rate_limit_snd]
    exact if_neg (by omega)

/-- Witness for C5: a fresh key under the default config (burst 5) ends
the call with 5 tokens, hence Ok; a fresh key with burst 0 ends the call
with 0 tokens, hence the error with `retry_after = last_refill + rate`. -/
theorem C5_witness :
    (check_rate_limit ⟨fun _ => none⟩ 7 .PublishNew 0 none none).1 =
      CheckOutcome.ok ∧
    (check_rate_limit ⟨fun _ => some ⟨1000000, 0⟩⟩ 7 .PublishNew 0 none
      none).1 =
      CheckOutcome.tooManyRequests
        ((check_rate_limit ⟨fun _ => some ⟨1000000, 0⟩⟩ 7 .PublishNew 0 none
          none).2.last_refill +
          ((RateLimiter.mk fun _ => some ⟨1000000, 0⟩).config_for_action
            .PublishNew).rate) :=
  ⟨(C5_allow_iff_tokens_remain ⟨fun _ => none⟩ 7 .PublishNew 0 none none).1
      (by decide),
    (C5_allow_iff_tokens_remain ⟨fun _ => some ⟨1000000, 0⟩⟩ 7 .PublishNew 0
      none none).2 (by decide)⟩

end RateLimit

namespace RateLimit

/-- Claim C6: the effective burst is the override row burst exactly when
the row exists and is effective at `now` (`expires_at` null or strictly
greater than `now`), and the configured burst otherwise; and the value so
resolved — once, before the upsert — is the one used by the very same
call in the clamping step, for both the update and the insert branch. -/
theorem C6_effective_burst_resolution (rl : RateLimiter) (u : Int)
    (a : LimitedAction) (now : Timestamp)
    (ov : Option PublishRateOverride) :
    (ov = none →
      effective_burst ov (rl.config_for_action a).burst now =
        (rl.config_for_action a).burst) ∧
    (∀ o, ov = some o → EffectiveAt o now →
      effective_burst ov (rl.config_for_action a).burst now = o.burst) ∧
    (∀ o, ov = some o → ¬EffectiveAt o now →
      effective_burst ov (rl.config_for_action a).burst now =
        (rl.config_for_action a).burst) ∧
    (∀ b : Bucket,
      (take_token rl u a now ov (some b)).tokens =
        min (effective_burst ov (rl.config_for_action a).burst now)
          (max 0 (b.tokens - 1) +
            tokens_to_add now b.last_refill
              (refill_rate_of (rl.config_for_action a)))) ∧
    ((take_token rl u a now ov none).tokens =
      effective_burst ov (rl.config_for_action a).burst now) := by
  refine ⟨fun h => by subst h; rfl, fun o ho he => ?_, fun o ho hne => ?_,
    fun b => rfl, rfl⟩
  · subst ho
    cases hexp : o.expires_at with
    | none => simp [effective_burst, hexp]
    | some e =>
      rcases he with h0 | ⟨e2, he1, he2⟩
      · rw [hexp] at h0
        cases h0
      · rw [hexp] at he1
        injection he1 with h
        subst h
        simp [effective_burst, hexp, he2]
  · subst ho
    cases hexp : o.expires_at with
    | none => exact absurd (Or.inl hexp) hne
    | some e =>
      have hlt : ¬now < e := fun hlt => hne (Or.inr ⟨e, hexp, hlt⟩)
      simp [effective_burst, hexp, hlt]

/-- Witness for C6: an override of burst 20 with no expiry is effective
and resolves to 20 under the default config; the same override already
expired (`expires_at = 0` at `now = 0`) resolves back to the default 5. -/
theorem C6_witness :
    effective_burst (some ⟨20, none⟩)
      ((RateLimiter.mk fun _ => none).config_for_action .PublishNew).burst 0
      = 20 ∧
    effective_burst (some ⟨20, some 0⟩)
      ((RateLimiter.mk fun _ => none).config_for_action .PublishNew).burst 0
      = ((RateLimiter.mk fun _ => none).config_for_action .PublishNew).burst :=
  ⟨(C6_effective_burst_resolution ⟨fun _ => none⟩ 7 .PublishNew 0
      (some ⟨20, none⟩)).2.1 ⟨20, none⟩ rfl (Or.inl rfl),
    (C6_effective_burst_resolution ⟨fun _ => none⟩ 7 .PublishNew 0
      (some ⟨20, some 0⟩)).2.2.1 ⟨20, some 0⟩ rfl
      (by rintro (h | ⟨e, he, hlt⟩) <;> simp_all)⟩

/-- Claim C8 (amended): in the source, the public `check_rate_limit` does
not take `now` from the caller — it reads `Utc::now()` itself (line 60),
here modelled as the explicit oracle argument `utcNow`. Relative to that
reading the component is a pure function of the resolved configuration,
the override row and the bucket row: the call behaves exactly as the same
call with the override pre-resolved into the configured burst at the
reading. (The counterexample shows the outcome genuinely depends on the
hidden reading, so determinism in the caller-visible inputs alone fails.) -/
theorem C8_check_factors_through_clock_reading (rl : RateLimiter)
    (u : Int) (a : LimitedAction) (utcNow : Timestamp)
    (ov : Option PublishRateOverride) (row : Option Bucket) :
    check_rate_limit rl u a utcNow ov row =
      check_rate_limit
        ⟨fun x => some ⟨(rl.config_for_action x).rate,
          effective_burst ov (rl.config_for_action x).burst utcNow⟩⟩
        u a utcNow none row := rfl

/-- Counterexample to C8 as stated: with identical caller-visible inputs
(subject 7, action PublishNew) and identical store state (bucket at one
token, rate 1 s, burst 10), two runs whose hidden clock reads 0 and
1000000 µs return different outcomes, so the public check is not a
function of (subject, action, store) alone. -/
theorem C8_counterexample :
    (check_rate_limit ⟨fun _ => some ⟨1000000, 10⟩⟩ 7 .PublishNew 0 none
      (some ⟨7, 1, 0, .PublishNew⟩)).1 ≠
    (check_rate_limit ⟨fun _ => some ⟨1000000, 10⟩⟩ 7 .PublishNew 1000000
      none (some ⟨7, 1, 0, .PublishNew⟩)).1 := by
  rw [check_rate_limit_fst, check_rate_limit_fst,
    take_token_some ⟨fun _ => some ⟨1000000, 10⟩⟩ 7 .PublishNew 0 none
      ⟨7, 1, 0, .PublishNew⟩ (by decide),
    take_token_some ⟨fun _ => some ⟨1000000, 10⟩⟩ 7 .PublishNew 1000000 none
      ⟨7, 1, 0, .PublishNew⟩ (by decide)]
  decide

end RateLimit

namespace RateLimit

/-- A check at the same instant as the stored `last_refill` adds no
tokens and leaves `last_refill` unchanged. -/
lemma take_token_same_instant (rl : RateLimiter) (u : Int)
    (a : LimitedAction) (now : Timestamp) (ov : Option PublishRateOverride)
    (b : Bucket) (hnow : b.last_refill = now) :
    take_token rl u a now ov (some b) =
      ⟨b.user_id,
        min (effective_burst ov (rl.config_for_action a).burst now)
          (max 0 (b.tokens - 1)),
        b.last_refill, b.action⟩ := by
  simp [take_token, hnow, tokens_to_add_self]

/-- After any `take_token` call at `now` (with a positive refill rate),
the persisted `last_refill` is at most `now` and less than one refill
interval behind it: the leftover sub-interval time is in `[0, R)`. -/
lemma take_token_last_refill_window (rl : RateLimiter) (u : Int)
    (a : LimitedAction) (now : Timestamp) (ov : Option PublishRateOverride)
    (row : Option Bucket)
    (hr : 0 < refill_rate_of (rl.config_for_action a)) :
    0 ≤ now - (take_token rl u a now ov row).last_refill ∧
    now - (take_token rl u a now ov row).last_refill <
      refill_rate_of (rl.config_for_action a) := by
  cases row with
  | none =>
    rw [take_token_none]
    refine ⟨by simp, ?_⟩
    simpa using hr
  | some b =>
    rw [take_token_some rl u a now ov b hr]
    have hmod : now - (b.last_refill +
        refill_rate_of (rl.config_for_action a) *
          ((now - b.last_refill) / refill_rate_of (rl.config_for_action a)))
        = (now - b.last_refill) % refill_rate_of (rl.config_for_action a) := by
      rw [Int.emod_def]
      ring
    constructor
    · rw [hmod]
      exact Int.emod_nonneg _ (ne_of_gt hr)
    · rw [hmod]
      exact Int.emod_lt_of_pos _ hr

/-- Claim C7: once a check at `now` leaves the bucket at 0 tokens, a
further check at the same `now` is idempotent on the stored state: the
upsert is still performed but writes back exactly the same row (tokens
stay 0, `last_refill` unchanged), and the call returns Deny with the same
`retry_after = last_refill + rate` every time. -/
theorem C7_exhausted_bucket_idempotent (rl : RateLimiter) (u : Int)
    (a : LimitedAction) (now : Timestamp) (ov : Option PublishRateOverride)
    (row : Option Bucket)
    (hr : 0 < refill_rate_of (rl.config_for_action a))
    (hB : 0 ≤ effective_burst ov (rl.config_for_action a).burst now)
    (h0 : (take_token rl u a now ov row).tokens = 0) :
    take_token rl u a now ov (some (take_token rl u a now ov row)) =
      take_token rl u a now ov row ∧
    check_rate_limit rl u a now ov (some (take_token rl u a now ov row)) =
      (CheckOutcome.tooManyRequests
        ((take_token rl u a now ov row).last_refill +
          (rl.config_for_action a).rate),
        take_token rl u a now ov row) := by
  have hwin := take_token_last_refill_window rl u a now ov row hr
  have hdiv : (now - (take_token rl u a now ov row).last_refill) /
      refill_rate_of (rl.config_for_action a) = 0 :=
    Int.ediv_eq_zero_of_lt hwin.1 hwin.2
  have htt : take_token rl u a now ov
      (some (take_token rl u a now ov row)) = take_token rl u a now ov row := by
    rw [take_token_some rl u a now ov _ hr, hdiv, h0]
    rw [show max 0 ((0 : Int) - 1) + 0 = 0 by norm_num,
      min_eq_right hB, mul_zero, add_zero, ← h0]
  refine ⟨htt, ?_⟩
  apply Prod.ext
  · rw [check_rate_limit_fst, htt, h0]
    rw [if_neg (by norm_num)]
  · rw [check_rate_limit_snd, htt]

/-- Witness for C7: rate 1 s, burst 10, bucket at one token refilled at
time 0, checked at time 0: the check drains it to 0, and the repeated
check at the same instant rewrites the same row and denies with
`retry_after = 0 + rate`. -/
theorem C7_witness :
    take_token ⟨fun _ => some ⟨1000000, 10⟩⟩ 7 .PublishNew 0 none
      (some (take_token ⟨fun _ => some ⟨1000000, 10⟩⟩ 7 .PublishNew 0 none
        (some ⟨7, 1, 0, .PublishNew⟩))) =
      take_token ⟨fun _ => some ⟨1000000, 10⟩⟩ 7 .PublishNew 0 none
        (some ⟨7, 1, 0, .PublishNew⟩) ∧
    check_rate_limit ⟨fun _ => some ⟨1000000, 10⟩⟩ 7 .PublishNew 0 none
      (some (take_token ⟨fun _ => some ⟨1000000, 10⟩⟩ 7 .PublishNew 0 none
        (some ⟨7, 1, 0, .PublishNew⟩))) =
      (CheckOutcome.tooManyRequests
        ((take_token ⟨fun _ => some ⟨1000000, 10⟩⟩ 7 .PublishNew 0 none
          (some ⟨7, 1, 0, .PublishNew⟩)).last_refill +
          ((RateLimiter.mk fun _ => some ⟨1000000, 10⟩).config_for_action
            .PublishNew).rate),
        take_token ⟨fun _ => some ⟨1000000, 10⟩⟩ 7 .PublishNew 0 none
          (some ⟨7, 1, 0, .PublishNew⟩)) :=
  C7_exhausted_bucket_idempotent ⟨fun _ => some ⟨1000000, 10⟩⟩ 7 .PublishNew
    0 none (some ⟨7, 1, 0, .PublishNew⟩) (by decide) (by decide)
    (by
      rw [take_token_some ⟨fun _ => some ⟨1000000, 10⟩⟩ 7 .PublishNew 0 none
        ⟨7, 1, 0, .PublishNew⟩ (by decide)]
      decide)

/-- Claim C10: with a positive refill rate, a check whose `now` lies
strictly before the stored `last_refill` computes a negative
`elapsed_units`; concretely (rate 1 s, burst 10, five banked tokens,
`now` ten seconds before `last_refill`) the persisted token count goes
negative and `last_refill` moves backwards; and both the `0 ≤ tokens`
bound and the non-decrease of `last_refill` do hold under the
precondition `last_refill ≤ now` (with nonnegative effective burst and
configured rate). -/
theorem C10_nonmonotone_time_breaks_invariants :
    (∀ (now l : Timestamp) (r : Micros), 0 < r → now < l →
      tokens_to_add now l r < 0) ∧
    ((take_token ⟨fun _ => some ⟨1000000, 10⟩⟩ 7 .PublishNew 0 none
      (some ⟨7, 5, 10000000, .PublishNew⟩)).tokens < 0 ∧
     (take_token ⟨fun _ => some ⟨1000000, 10⟩⟩ 7 .PublishNew 0 none
      (some ⟨7, 5, 10000000, .PublishNew⟩)).last_refill < 10000000) ∧
    (∀ (rl : RateLimiter) (u : Int) (a : LimitedAction) (now : Timestamp)
      (ov : Option PublishRateOverride) (b : Bucket),
      0 ≤ effective_burst ov (rl.config_for_action a).burst now →
      0 ≤ (rl.config_for_action a).rate →
      b.last_refill ≤ now →
      0 ≤ (take_token rl u a now ov (some b)).tokens ∧
      b.last_refill ≤ (take_token rl u a now ov (some b)).last_refill) := by
  refine ⟨fun now l r hr hlt => ?_, ⟨?_, ?_⟩, fun rl u a now ov b hB hrate hL => ?_⟩
  · rw [tokens_to_add_eq_ediv now l r hr]
    exact Int.ediv_neg' (sub_neg.mpr hlt) hr
  · rw [take_token_some ⟨fun _ => some ⟨1000000, 10⟩⟩ 7 .PublishNew 0 none
      ⟨7, 5, 10000000, .PublishNew⟩ (by decide)]
    decide
  · rw [take_token_some ⟨fun _ => some ⟨1000000, 10⟩⟩ 7 .PublishNew 0 none
      ⟨7, 5, 10000000, .PublishNew⟩ (by decide)]
    decide
  · have hrr : 0 ≤ refill_rate_of (rl.config_for_action a) :=
      refill_rate_of_nonneg _ hrate
    have hadd : 0 ≤ tokens_to_add now b.last_refill
        (refill_rate_of (rl.config_for_action a)) :=
      tokens_to_add_nonneg now b.last_refill _ hL hrr
    constructor
    · exact le_min hB (add_nonneg (le_max_left _ _) hadd)
    · exact le_add_of_nonneg_right (mul_nonneg hrr hadd)

/-- Witness for C10: the negative-elapsed part at rate 1 s with `now` one
second before `last_refill`, and the guarded bounds at the C1 scenario
(rate 1 s, burst 10, bucket at 5 tokens refilled at 0, checked at 2 s). -/
theorem C10_witness :
    tokens_to_add 0 1000000 1000000 < 0 ∧
    (0 ≤ (take_token ⟨fun _ => some ⟨1000000, 10⟩⟩ 7 .PublishNew 2000000 none
      (some ⟨7, 5, 0, .PublishNew⟩)).tokens ∧
     (0 : Int) ≤ (take_token ⟨fun _ => some ⟨1000000, 10⟩⟩ 7 .PublishNew
      2000000 none (some ⟨7, 5, 0, .PublishNew⟩)).last_refill) :=
  ⟨C10_nonmonotone_time_breaks_invariants.1 0 1000000 1000000 (by decide)
      (by decide),
    (C10_nonmonotone_time_breaks_invariants.2.2 ⟨fun _ => some ⟨1000000, 10⟩⟩
      7 .PublishNew 2000000 none ⟨7, 5, 0, .PublishNew⟩ (by decide)
      (by decide) (by decide))⟩

end RateLimit

namespace RateLimit

/-- On a fresh key, after `n + 1` consecutive `take_token` calls at the
same instant with nonnegative effective burst `B`, the row holds
`max 0 (B - n)` tokens and `last_refill = now`: the creating call leaves
`B`, and each later call decrements by one, floored at zero. -/
lemma bucket_after_succ (rl : RateLimiter) (u : Int) (a : LimitedAction)
    (now : Timestamp) (ov : Option PublishRateOverride)
    (hB : 0 ≤ effective_burst ov (rl.config_for_action a).burst now) :
    ∀ n : Nat, bucket_after rl u a now ov (n + 1) =
      some ⟨u, max 0 (effective_burst ov (rl.config_for_action a).burst now
        - (n : Int)), now, a⟩ := by
  intro n
  induction n with
  | zero =>
    show some (take_token rl u a now ov none) = _
    rw [take_token_none]
    congr 2
    omega
  | succ m ih =>
    show some (take_token rl u a now ov (bucket_after rl u a now ov (m + 1)))
      = _
    rw [ih, take_token_same_instant rl u a now ov _ rfl]
    congr 2
    push_cast
    omega

/-- Claim C9 (amended): for a brand-new key with effective burst `B ≥ 1`,
exactly the first `B` consecutive checks at one instant return Allow (the
creating call is free and leaves `tokens = B`, each later call decrements
by one, and a call is allowed only when the post-call count is still at
least 1), and check number `B + 1` is the first Deny, with
`retry_after = now + rate`. (As stated — `B + 1` Allows with the
`(B + 2)`th check the first Deny — the claim fails; see the
counterexample at `B = 1`.) -/
theorem C9_fresh_key_allows_exactly_burst_checks (rl : RateLimiter)
    (u : Int) (a : LimitedAction) (now : Timestamp)
    (ov : Option PublishRateOverride)
    (hB : 1 ≤ effective_burst ov (rl.config_for_action a).burst now)
    (n : Nat) :
    ((n : Int) < effective_burst ov (rl.config_for_action a).burst now →
      nth_check rl u a now ov n = CheckOutcome.ok) ∧
    ((n : Int) = effective_burst ov (rl.config_for_action a).burst now →
      nth_check rl u a now ov n =
        CheckOutcome.tooManyRequests
          (now + (rl.config_for_action a).rate)) := by
  cases n with
  | zero =>
    constructor
    · intro _
      show (check_rate_limit rl u a now ov none).1 = _
      rw [check_rate_limit_fst, take_token_none]
      exact if_pos hB
    · intro h
      exact absurd (h ▸ hB) (by norm_num)
  | succ m =>
    have hrow := bucket_after_succ rl u a now ov (by omega) m
    constructor
    · intro hlt
      show (check_rate_limit rl u a now ov
        (bucket_after rl u a now ov (m + 1))).1 = _
      rw [hrow, check_rate_limit_fst,
        take_token_same_instant rl u a now ov _ rfl]
      dsimp only
      push_cast at hlt
      have harith : 1 ≤ min (effective_burst ov
          (rl.config_for_action a).burst now)
          (max 0 (max 0 (effective_burst ov
            (rl.config_for_action a).burst now - (m : Int)) - 1)) := by
        omega
      exact if_pos harith
    · intro heq
      show (check_rate_limit rl u a now ov
        (bucket_after rl u a now ov (m + 1))).1 = _
      rw [hrow, check_rate_limit_fst,
        take_token_same_instant rl u a now ov _ rfl]
      dsimp only
      push_cast at heq
      have harith : ¬(1 ≤ min (effective_burst ov
          (rl.config_for_action a).burst now)
          (max 0 (max 0 (effective_burst ov
            (rl.config_for_action a).burst now - (m : Int)) - 1))) := by
        omega
      rw [if_neg harith]

/-- Witness for C9: under the built-in default config (burst 5, rate one
hour) and no override, the first check of a fresh key is allowed and
check number 6 is denied with `retry_after` one hour after the instant. -/
theorem C9_witness :
    nth_check ⟨fun _ => none⟩ 7 .PublishNew 0 none 0 = CheckOutcome.ok ∧
    nth_check ⟨fun _ => none⟩ 7 .PublishNew 0 none 5 =
      CheckOutcome.tooManyRequests 3600000000 := by
  constructor
  · exact (C9_fresh_key_allows_exactly_burst_checks ⟨fun _ => none⟩ 7
      .PublishNew 0 none (by decide) 0).1 (by decide)
  · rw [(C9_fresh_key_allows_exactly_burst_checks ⟨fun _ => none⟩ 7
      .PublishNew 0 none (by decide) 5).2 (by decide)]
    decide

/-- Counterexample to C9 as stated: with effective burst `B = 1` (rate
1 s), the claim predicts `B + 1 = 2` Allows, but the second check at the
same instant is already denied. -/
theorem C9_counterexample :
    nth_check ⟨fun _ => some ⟨1000000, 1⟩⟩ 7 .PublishNew 0 none 0 =
      CheckOutcome.ok ∧
    nth_check ⟨fun _ => some ⟨1000000, 1⟩⟩ 7 .PublishNew 0 none 1 ≠
      CheckOutcome.ok := by
  have hrow := bucket_after_succ ⟨fun _ => some ⟨1000000, 1⟩⟩ 7 .PublishNew
    0 none (by decide) 0
  constructor
  · show (check_rate_limit ⟨fun _ => some ⟨1000000, 1⟩⟩ 7 .PublishNew 0 none
      none).1 = _
    rw [check_rate_limit_fst, take_token_none]
    decide
  · show (check_rate_limit ⟨fun _ => some ⟨1000000, 1⟩⟩ 7 .PublishNew 0 none
      (bucket_after ⟨fun _ => some ⟨1000000, 1⟩⟩ 7 .PublishNew 0 none 1)).1
      ≠ _
    rw [hrow, check_rate_limit_fst,
      take_token_same_instant ⟨fun _ => some ⟨1000000, 1⟩⟩ 7 .PublishNew 0
        none _ rfl]
    decide

end RateLimit
